import Mathlib

/-!
Verification development for the `bunch` library (`src/bunch/__init__.py`).

The library provides `Bunch`, a Python 2 `dict` subclass with attribute-style
access, and the recursive converters `bunchify` / `unbunchify`.

Shallow embedding notes:
* A `Bunch` instance is modelled by `BunchState`: the dict contents
  (`entries`) and the instance `__dict__` (`attrs`), both as association
  lists with unique keys.  Class-level members of `dict`/`Bunch` (the
  "reserved names": `keys`, `values`, `update`, ..., plus the dunder
  members) are modelled by the fixed list `reservedNames`; looking one up
  yields the opaque value `Val.builtin name` (the bound method object).
* Attribute lookup follows CPython: the instance `__dict__` is consulted
  first (`dict` methods are non-data descriptors), then the class members,
  and only when both fail is `Bunch.__getattr__` invoked, which looks the
  name up as a key and converts `KeyError` to `AttributeError(name)`.
* `hasattr(self, name)` is `getattr` succeeding, so it also sees keys via
  the `__getattr__` fallback -- this is essential to `Bunch.__setattr__`.
* Python object identity of stored values is modelled by `Val.obj` carrying
  a numeric object id, so equality of `Val` is object identity.
* Exceptions are modelled by `Except PyErr`: `KeyError(name)` is
  `PyErr.keyNotFound`, `AttributeError(name)` is `PyErr.attributeNotFound`,
  and the `object.__delattr__` failure "attribute is read-only" raised for
  never-overridden class members is `PyErr.attributeReadOnly`.
-/

/-- Values stored in a `Bunch`: opaque Python objects identified by an
object id, string objects (needed for the `repr` scenarios), and bound
built-in methods of the class (the result of reading a reserved name). -/
inductive Val where
  | obj : Nat → Val
  | strV : String → Val
  | builtin : String → Val
deriving DecidableEq

/-- Errors raised by the modelled operations: `KeyError(name)`,
`AttributeError(name)`, and the read-only `AttributeError` produced by
`object.__delattr__` on a class-level attribute. -/
inductive PyErr where
  | keyNotFound : String → PyErr
  | attributeNotFound : String → PyErr
  | attributeReadOnly : String → PyErr
deriving DecidableEq

/-- Discriminator for the key-style error kind. -/
def PyErr.isKeyNotFound : PyErr → Bool
  | .keyNotFound _ => true
  | _ => false

/-- Association list used for both the dict contents and the instance
`__dict__`. -/
abbrev Assoc := List (String × Val)

/-- First-match lookup in an association list (a Python dict never holds
duplicate keys, so first-match agrees with the dict). -/
def lookupA : Assoc → String → Option Val
  | [], _ => none
  | p :: rest, key => if p.1 = key then some p.2 else lookupA rest key

/-- `object.__setattr__` on the instance `__dict__`: replace the value if
the name is bound, otherwise append a fresh binding. -/
def setAssoc : Assoc → String → Val → Assoc
  | [], key, v => [(key, v)]
  | p :: rest, key, v => if p.1 = key then (key, v) :: rest else p :: setAssoc rest key v

/-- Removal of a binding (`del self[name]` / deleting an instance
attribute). -/
def removeAssoc : Assoc → String → Assoc
  | [], _ => []
  | p :: rest, key => if p.1 = key then removeAssoc rest key else p :: removeAssoc rest key

/-- `dict.setdefault(name, value)`: insert only when the key is absent,
keeping the stored value otherwise (source line 149). -/
def setdefaultA (l : Assoc) (key : String) (v : Val) : Assoc :=
  match lookupA l key with
  | some _ => l
  | none => l ++ [(key, v)]

/-- State of a `Bunch` instance: the mapping contents and the instance
`__dict__`. -/
structure BunchState where
  entries : Assoc
  attrs : Assoc
deriving DecidableEq

/-- Member names bound on the `Bunch` class and its bases (`dict`,
`object`) in Python 2.7: the dict methods plus the dunder members.  These
are the names for which plain attribute lookup succeeds on a fresh
instance. -/
def reservedNames : List String :=
  ["clear", "copy", "fromkeys", "get", "has_key", "items", "iteritems",
   "iterkeys", "itervalues", "keys", "pop", "popitem", "setdefault",
   "update", "values", "viewitems", "viewkeys", "viewvalues",
   "__class__", "__init__", "__new__", "__doc__", "__module__", "__dict__",
   "__getattr__", "__setattr__", "__delattr__", "__getattribute__",
   "__repr__", "__str__", "__hash__", "__eq__", "__ne__", "__lt__",
   "__le__", "__gt__", "__ge__", "__cmp__", "__contains__", "__getitem__",
   "__setitem__", "__delitem__", "__iter__", "__len__", "__sizeof__",
   "__reduce__", "__reduce_ex__", "__format__", "__subclasshook__",
   "__weakref__"]

/-- Subscript read `self[name]` (`dict.__getitem__`): the stored value, or
`KeyError(name)`. -/
def getitemB (b : BunchState) (name : String) : Except PyErr Val :=
  match lookupA b.entries name with
  | some v => .ok v
  | none => .error (.keyNotFound name)

/-- Attribute read `getattr(b, name)`.  Normal lookup (instance
`__dict__`, then the class members) runs first; `Bunch.__getattr__`
(source lines 102-128) is invoked only when normal lookup fails and
returns `self[name]`, converting `KeyError` to `AttributeError(name)`. -/
def getattrB (b : BunchState) (name : String) : Except PyErr Val :=
  match lookupA b.attrs name with
  | some v => .ok v
  | none =>
    if reservedNames.contains name then .ok (.builtin name)
    else
      match getitemB b name with
      | .ok v => .ok v
      | .error _ => .error (.attributeNotFound name)

/-- Success test for a modelled attribute read. -/
def isOkE : Except PyErr Val → Bool
  | .ok _ => true
  | .error _ => false

/-- `hasattr(self, name)`: whether `getattr` succeeds.  Because `getattr`
falls back to `Bunch.__getattr__`, a plain mapping key also counts. -/
def hasattrB (b : BunchState) (name : String) : Bool :=
  isOkE (getattrB b name)

/-- `Bunch.__setattr__` (source lines 130-149): if `hasattr(self, name)`
then `object.__setattr__(self, name, value)`, else
`self.setdefault(name, value)`. -/
def setattrB (b : BunchState) (name : String) (v : Val) : BunchState :=
  if hasattrB b name then { b with attrs := setAssoc b.attrs name v }
  else { b with entries := setdefaultA b.entries name v }

/-- `Bunch.__delattr__` (source lines 151-170): try `del self[name]`; on
`KeyError` fall back to `object.__delattr__(self, name)`, which removes an
instance attribute, fails with the read-only `AttributeError` on a
class-level member, and with `AttributeError(name)` otherwise. -/
def delattrB (b : BunchState) (name : String) : Except PyErr BunchState :=
  match lookupA b.entries name with
  | some _ => .ok { b with entries := removeAssoc b.entries name }
  | none =>
    match lookupA b.attrs name with
    | some _ => .ok { b with attrs := removeAssoc b.attrs name }
    | none =>
      if reservedNames.contains name then .error (.attributeReadOnly name)
      else .error (.attributeNotFound name)

/-!
Model of the nested Python structures walked by `bunchify` / `unbunchify`
(source lines 193-239).  A value is a scalar/opaque leaf (identified by a
numeric id; `bunchify` passes such values through unchanged), a plain
`dict`, a `Bunch`, a `list`, or a `tuple`.  Mapping entries and sequence
elements are given by the mutually defined `PyFields` / `PyList` so that
all recursions below are structural.
-/

mutual
/-- Nested Python value as traversed by the converters. -/
inductive PyVal where
  | leaf : Nat → PyVal
  | dict : PyFields → PyVal
  | bunch : PyFields → PyVal
  | listV : PyList → PyVal
  | tupleV : PyList → PyVal
/-- Entries of a mapping, in iteration order. -/
inductive PyFields where
  | nil : PyFields
  | cons : String → PyVal → PyFields → PyFields
/-- Elements of a sequence, in order. -/
inductive PyList where
  | nil : PyList
  | cons : PyVal → PyList → PyList
end

mutual
/-- `bunchify(obj)` (source lines 193-216): a mapping becomes a `Bunch`
with every value recursively converted, a `list`/`tuple` is rebuilt with
the same concrete type (`type(obj)(...)`) and converted elements, and any
other value is returned unchanged. -/
def bunchify : PyVal → PyVal
  | .leaf n => .leaf n
  | .dict kvs => .bunch (bunchifyF kvs)
  | .bunch kvs => .bunch (bunchifyF kvs)
  | .listV xs => .listV (bunchifyL xs)
  | .tupleV xs => .tupleV (bunchifyL xs)
/-- `bunchify` over the entries of a mapping. -/
def bunchifyF : PyFields → PyFields
  | .nil => .nil
  | .cons k v rest => .cons k (bunchify v) (bunchifyF rest)
/-- `bunchify` over the elements of a sequence. -/
def bunchifyL : PyList → PyList
  | .nil => .nil
  | .cons x xs => .cons (bunchify x) (bunchifyL xs)
end

mutual
/-- `unbunchify(obj)` (source lines 218-239): a mapping (including a
`Bunch`, which is a `dict` subclass) becomes a plain `dict` with every
value recursively converted, a `list`/`tuple` is rebuilt with the same
concrete type and converted elements, and any other value is returned
unchanged. -/
def unbunchify : PyVal → PyVal
  | .leaf n => .leaf n
  | .dict kvs => .dict (unbunchifyF kvs)
  | .bunch kvs => .dict (unbunchifyF kvs)
  | .listV xs => .listV (unbunchifyL xs)
  | .tupleV xs => .tupleV (unbunchifyL xs)
/-- `unbunchify` over the entries of a mapping. -/
def unbunchifyF : PyFields → PyFields
  | .nil => .nil
  | .cons k v rest => .cons k (unbunchify v) (unbunchifyF rest)
/-- `unbunchify` over the elements of a sequence. -/
def unbunchifyL : PyList → PyList
  | .nil => .nil
  | .cons x xs => .cons (unbunchify x) (unbunchifyL xs)
end

mutual
/-- A structure is plain when it is built only from `dict`s, `list`s,
`tuple`s and leaves (no `Bunch` nodes). -/
def plainV : PyVal → Bool
  | .leaf _ => true
  | .dict kvs => plainF kvs
  | .bunch _ => false
  | .listV xs => plainL xs
  | .tupleV xs => plainL xs
/-- Plainness of mapping entries. -/
def plainF : PyFields → Bool
  | .nil => true
  | .cons _ v rest => plainV v && plainF rest
/-- Plainness of sequence elements. -/
def plainL : PyList → Bool
  | .nil => true
  | .cons x xs => plainV x && plainL xs
end

/-- One navigation step into a nested structure: a mapping key or a
sequence index. -/
inductive PathStep where
  | keyStep : String → PathStep
  | idxStep : Nat → PathStep
deriving DecidableEq

/-- Lookup of a mapping entry by key. -/
def lookupF : PyFields → String → Option PyVal
  | .nil, _ => none
  | .cons k v rest, key => if k = key then some v else lookupF rest key

/-- Lookup of a sequence element by index. -/
def getIdx : PyList → Nat → Option PyVal
  | .nil, _ => none
  | .cons x _, 0 => some x
  | .cons _ xs, n + 1 => getIdx xs n

/-- The immediate child of a value along one path step. -/
def childAt : PyVal → PathStep → Option PyVal
  | .dict kvs, .keyStep k => lookupF kvs k
  | .bunch kvs, .keyStep k => lookupF kvs k
  | .listV xs, .idxStep i => getIdx xs i
  | .tupleV xs, .idxStep i => getIdx xs i
  | _, _ => none

/-- The sub-value of a nested structure at a path. -/
def getPath : PyVal → List PathStep → Option PyVal
  | v, [] => some v
  | v, s :: rest => (childAt v s).bind (fun c => getPath c rest)

/-- Concrete container kind of a value: mapping, list, tuple, or leaf.
`dict` and `Bunch` are both mappings; `list` and `tuple` are distinct
kinds. -/
inductive Kind where
  | leafK : Kind
  | mapK : Kind
  | listK : Kind
  | tupleK : Kind
deriving DecidableEq

/-- Kind of a value. -/
def kindOf : PyVal → Kind
  | .leaf _ => .leafK
  | .dict _ => .mapK
  | .bunch _ => .mapK
  | .listV _ => .listK
  | .tupleV _ => .tupleK

mutual
/-- Nesting depth of a value (0 for a leaf, one more than the deepest
entry for a container). -/
def depthV : PyVal → Nat
  | .leaf _ => 0
  | .dict kvs => depthF kvs + 1
  | .bunch kvs => depthF kvs + 1
  | .listV xs => depthL xs + 1
  | .tupleV xs => depthL xs + 1
/-- Deepest value among mapping entries. -/
def depthF : PyFields → Nat
  | .nil => 0
  | .cons _ v rest => max (depthV v) (depthF rest)
/-- Deepest value among sequence elements. -/
def depthL : PyList → Nat
  | .nil => 0
  | .cons x xs => max (depthV x) (depthL xs)
end

/-- The spec's concrete scenario input: the nested plain structure
corresponding to the Python literal with key `a` holding a mapping whose
key `b` holds a list of a scalar and a pair of a scalar and a mapping. -/
def specExample : PyVal :=
  .dict (.cons "a"
    (.dict (.cons "b"
      (.listV (.cons (.leaf 1)
        (.cons (.tupleV (.cons (.leaf 99)
          (.cons (.dict (.cons "d" (.leaf 2) .nil)) .nil)))
         .nil)))
      .nil))
    .nil)

/-!
Allocation-tagged model for the sharing/freshness guarantees of
`bunchify` (claim about mutation, fresh containers, and leaf identity).
Every heap object carries a numeric object id; `bunchifyO` threads an
allocation counter and stamps every container it builds with a fresh id,
while leaves are returned unchanged (same object).  The embedding is a
pure function, so the input structure is never modified.
-/

mutual
/-- Heap object: a leaf or a container, each with its object id. -/
inductive PyObj where
  | leafO : Nat → PyObj
  | dictO : Nat → PyObjFields → PyObj
  | bunchO : Nat → PyObjFields → PyObj
  | listO : Nat → PyObjList → PyObj
  | tupleO : Nat → PyObjList → PyObj
/-- Mapping entries of heap objects. -/
inductive PyObjFields where
  | nilF : PyObjFields
  | consF : String → PyObj → PyObjFields → PyObjFields
/-- Sequence elements of heap objects. -/
inductive PyObjList where
  | nilL : PyObjList
  | consL : PyObj → PyObjList → PyObjList
end

mutual
/-- `bunchify` with explicit allocation: the result object together with
the next unused object id.  Containers are rebuilt with fresh ids;
leaves are passed through as the identical object. -/
def bunchifyO : PyObj → Nat → PyObj × Nat
  | .leafO i, n => (.leafO i, n)
  | .dictO _ kvs, n =>
      (.bunchO (bunchifyOF kvs n).2 (bunchifyOF kvs n).1, (bunchifyOF kvs n).2 + 1)
  | .bunchO _ kvs, n =>
      (.bunchO (bunchifyOF kvs n).2 (bunchifyOF kvs n).1, (bunchifyOF kvs n).2 + 1)
  | .listO _ xs, n =>
      (.listO (bunchifyOL xs n).2 (bunchifyOL xs n).1, (bunchifyOL xs n).2 + 1)
  | .tupleO _ xs, n =>
      (.tupleO (bunchifyOL xs n).2 (bunchifyOL xs n).1, (bunchifyOL xs n).2 + 1)
/-- Allocation-threading conversion of mapping entries. -/
def bunchifyOF : PyObjFields → Nat → PyObjFields × Nat
  | .nilF, n => (.nilF, n)
  | .consF k v rest, n =>
      (.consF k (bunchifyO v n).1 (bunchifyOF rest (bunchifyO v n).2).1,
       (bunchifyOF rest (bunchifyO v n).2).2)
/-- Allocation-threading conversion of sequence elements. -/
def bunchifyOL : PyObjList → Nat → PyObjList × Nat
  | .nilL, n => (.nilL, n)
  | .consL x xs, n =>
      (.consL (bunchifyO x n).1 (bunchifyOL xs (bunchifyO x n).2).1,
       (bunchifyOL xs (bunchifyO x n).2).2)
end

mutual
/-- Whether some container node in the structure carries the object id
`c` (leaf ids are not counted: this tracks container identity). -/
def hasCid : PyObj → Nat → Bool
  | .leafO _, _ => false
  | .dictO i kvs, c => (i == c) || hasCidF kvs c
  | .bunchO i kvs, c => (i == c) || hasCidF kvs c
  | .listO i xs, c => (i == c) || hasCidL xs c
  | .tupleO i xs, c => (i == c) || hasCidL xs c
/-- Container-id membership over mapping entries. -/
def hasCidF : PyObjFields → Nat → Bool
  | .nilF, _ => false
  | .consF _ v rest, c => hasCid v c || hasCidF rest c
/-- Container-id membership over sequence elements. -/
def hasCidL : PyObjList → Nat → Bool
  | .nilL, _ => false
  | .consL x xs, c => hasCid x c || hasCidL xs c
end

mutual
/-- All container ids in the structure are below `n` (the allocation
counter has not reached them yet). -/
def cidsBelow : PyObj → Nat → Bool
  | .leafO _, _ => true
  | .dictO i kvs, n => decide (i < n) && cidsBelowF kvs n
  | .bunchO i kvs, n => decide (i < n) && cidsBelowF kvs n
  | .listO i xs, n => decide (i < n) && cidsBelowL xs n
  | .tupleO i xs, n => decide (i < n) && cidsBelowL xs n
/-- Container-id bound over mapping entries. -/
def cidsBelowF : PyObjFields → Nat → Bool
  | .nilF, _ => true
  | .consF _ v rest, n => cidsBelow v n && cidsBelowF rest n
/-- Container-id bound over sequence elements. -/
def cidsBelowL : PyObjList → Nat → Bool
  | .nilL, _ => true
  | .consL x xs, n => cidsBelow x n && cidsBelowL xs n
end

/-- Lookup of a heap-object mapping entry by key. -/
def lookupOF : PyObjFields → String → Option PyObj
  | .nilF, _ => none
  | .consF k v rest, key => if k = key then some v else lookupOF rest key

/-- Lookup of a heap-object sequence element by index. -/
def getIdxO : PyObjList → Nat → Option PyObj
  | .nilL, _ => none
  | .consL x _, 0 => some x
  | .consL _ xs, n + 1 => getIdxO xs n

/-- The immediate child of a heap object along one path step. -/
def childAtO : PyObj → PathStep → Option PyObj
  | .dictO _ kvs, .keyStep k => lookupOF kvs k
  | .bunchO _ kvs, .keyStep k => lookupOF kvs k
  | .listO _ xs, .idxStep i => getIdxO xs i
  | .tupleO _ xs, .idxStep i => getIdxO xs i
  | _, _ => none

/-- The heap object reached from `v` along a path. -/
def getPathO : PyObj → List PathStep → Option PyObj
  | v, [] => some v
  | v, s :: rest => (childAtO v s).bind (fun c => getPathO c rest)

/-!
Ordering model of the underlying Python 2 `dict` (claim about key order).
`Bunch` stores its entries in a CPython 2.7 hash table; iteration and
`repr` list the used slots in increasing slot index, which is *not*
insertion order.  The model below reproduces, for tables of the initial
size 8 (a dict holds at most 5 entries before its first resize, which
covers every scenario documented in the source), the CPython 2.7 string
hash and the open-addressing probe sequence of `lookdict`:
`i0 = hash & mask`, then `i = 5*i + perturb + 1` with `perturb` starting
at the hash and shifted right by 5 each step, all on 64-bit words.
-/

/-- Two to the 64th: C `long` / `size_t` arithmetic is modulo this. -/
def U64 : Nat := 2 ^ 64

/-- The multiply-xor loop of CPython 2.7 `string_hash`:
`x = (1000003 * x) ^ ord(c)` over all characters, on 64-bit words. -/
def pyHashCore : List Char → Nat → Nat
  | [], x => x
  | c :: cs, x => pyHashCore cs (((1000003 * x) % U64) ^^^ c.toNat)

/-- CPython 2.7 (64-bit) `string_hash`: `x` starts as the first byte
shifted left 7, runs the multiply-xor loop over the whole string, is
xored with the length, and `-1` is patched to `-2`; the empty string
hashes to 0.  The result is the 64-bit bit pattern (as used by the dict,
which masks it as an unsigned word). -/
def pyHashStr (s : String) : Nat :=
  match s.data with
  | [] => 0
  | c :: cs =>
    let x := pyHashCore (c :: cs) ((c.toNat <<< 7) % U64)
    let y := x ^^^ s.length
    if y = U64 - 1 then U64 - 2 else y

/-- A size-8 slot table: each slot is empty or holds a key-value entry. -/
abbrev Slots := List (Option (String × Val))

/-- The empty 8-slot table of a fresh dict. -/
def emptySlots : Slots := List.replicate 8 none

/-- The `lookdict` probe: starting from `i` with the given `perturb`,
return the first slot (index `i % 8`) that is empty or holds the probed
key, advancing with `i = 5*i + perturb + 1` and `perturb >>= 5` on 64-bit
words.  The fuel bounds the loop; a table that is not full (the dict
resizes before that) is found well within 64 probes. -/
def probeLoop (slots : Slots) (key : String) (i perturb : Nat) : Nat → Nat
  | 0 => i % 8
  | fuel + 1 =>
    match slots.get? (i % 8) with
    | some none => i % 8
    | none => i % 8
    | some (some kv) =>
      if kv.1 = key then i % 8
      else probeLoop slots key ((5 * i + perturb + 1) % U64) (perturb >>> 5) fuel

/-- Insertion (or update) of an entry: the entry goes to the slot chosen
by the probe sequence of its hash. -/
def dictInsert (slots : Slots) (key : String) (v : Val) : Slots :=
  let h := pyHashStr key
  slots.set (probeLoop slots key (h % 8) h 64) (some (key, v))

/-- Keys in iteration order: used slots in increasing slot index. -/
def tableKeys (slots : Slots) : List String :=
  slots.filterMap (fun s => s.map (fun kv => kv.1))

/-- A single-quote character as a string (keeps repr text readable). -/
def quoteS : String := String.singleton (Char.ofNat 39)

/-- An opening curly brace as a string. -/
def lbrace : String := String.singleton (Char.ofNat 123)

/-- A closing curly brace as a string. -/
def rbrace : String := String.singleton (Char.ofNat 125)

/-- Python `repr` of a stored value, for the repr scenario: strings are
quoted; other objects render opaquely. -/
def pyReprVal : Val → String
  | .obj n => "<object " ++ toString n ++ ">"
  | .strV s => quoteS ++ s ++ quoteS
  | .builtin name => "<built-in method " ++ name ++ ">"

/-- Rendering of one used slot as a dict-repr item. -/
def slotEntryRepr : Option (String × Val) → Option String
  | none => none
  | some kv => some (quoteS ++ kv.1 ++ quoteS ++ ": " ++ pyReprVal kv.2)

/-- `dict.__repr__`: the used slots, in slot order, between braces. -/
def dictRepr (slots : Slots) : String :=
  lbrace ++ String.intercalate ", " (slots.filterMap slotEntryRepr) ++ rbrace

/-- `Bunch.__repr__` (source lines 172-181): the class name around the
dict repr. -/
def bunchRepr (slots : Slots) : String :=
  "Bunch(" ++ dictRepr slots ++ ")"

/-!
Helper lemmas about the association-list operations.
-/

theorem lookupA_setAssoc_self (l : Assoc) (k : String) (v : Val) :
    lookupA (setAssoc l k v) k = some v := by
  induction l with
  | nil => simp [setAssoc, lookupA]
  | cons p rest ih =>
    by_cases h : p.1 = k
    · simp [setAssoc, lookupA, h]
    · simp [setAssoc, lookupA, h, ih]

theorem lookupA_append_absent (l : Assoc) (k : String) (v : Val)
    (h : lookupA l k = none) : lookupA (l ++ [(k, v)]) k = some v := by
  induction l with
  | nil => simp [lookupA]
  | cons p rest ih =>
    by_cases hp : p.1 = k
    · simp [lookupA, hp] at h
    · simp only [lookupA, hp, if_neg hp] at h
      simpa [lookupA, hp] using ih h

theorem lookupA_removeAssoc_self (l : Assoc) (k : String) :
    lookupA (removeAssoc l k) k = none := by
  induction l with
  | nil => simp [removeAssoc, lookupA]
  | cons p rest ih =>
    by_cases hp : p.1 = k
    · simp [removeAssoc, hp, ih]
    · simp [removeAssoc, lookupA, hp, ih]

/-!
Claim theorems for the attribute-style operations.
-/

/-- C1 counterexample: the claim fails when the name is already present as
a key.  Starting from an empty `Bunch`, the attribute write of object 1 to
the non-reserved name `foo` creates the key, but a second attribute write
of object 2 rebinds an instance attribute (because `hasattr` now sees the
key through the `__getattr__` fallback), so the key read still returns
object 1, not the newly written object 2 -- while the attribute read
returns object 2.  The two views diverge, refuting the claim as stated. -/
theorem c1_counterexample :
    reservedNames.contains "foo" = false ∧
    getitemB (setattrB (setattrB ⟨[], []⟩ "foo" (.obj 1)) "foo" (.obj 2)) "foo"
      = .ok (.obj 1) ∧
    getattrB (setattrB (setattrB ⟨[], []⟩ "foo" (.obj 1)) "foo" (.obj 2)) "foo"
      = .ok (.obj 2) ∧
    Val.obj 1 ≠ Val.obj 2 :=
  ⟨by decide, rfl, rfl, by decide⟩

/-- C1 (amended): for a non-reserved name `k` that is not yet present --
neither as a key nor as an instance attribute -- the attribute write
`setattrB b k v` stores `v` as the key `k`, and afterwards both the key
read and the attribute read return the identical stored value `v`.  (For
a name already present as a key, a further attribute write rebinds an
instance attribute instead and the two views diverge, as the
counterexample shows.) -/
theorem c1_setattr_fresh (b : BunchState) (k : String) (v : Val)
    (hres : reservedNames.contains k = false)
    (hattr : lookupA b.attrs k = none)
    (hkey : lookupA b.entries k = none) :
    getitemB (setattrB b k v) k = .ok v ∧
    getattrB (setattrB b k v) k = .ok v := by
  have hmem : k ∉ reservedNames := by simpa using hres
  have hhas : hasattrB b k = false := by
    simp [hasattrB, getattrB, getitemB, isOkE, hattr, hkey, hmem]
  have hset : setattrB b k v = { b with entries := b.entries ++ [(k, v)] } := by
    simp [setattrB, hhas, setdefaultA, hkey]
  have hitem : getitemB (setattrB b k v) k = .ok v := by
    simp [hset, getitemB, lookupA_append_absent b.entries k v hkey]
  refine ⟨hitem, ?_⟩
  simp [hset, getattrB, getitemB, hattr, hmem,
    lookupA_append_absent b.entries k v hkey]

/-- C1 witness: the amended theorem at the doctest input `b.hello =
'world'` on a fresh `Bunch`. -/
theorem c1_witness :
    getitemB (setattrB ⟨[], []⟩ "hello" (.strV "world")) "hello" = .ok (.strV "world") ∧
    getattrB (setattrB ⟨[], []⟩ "hello" (.strV "world")) "hello" = .ok (.strV "world") :=
  c1_setattr_fresh ⟨[], []⟩ "hello" (.strV "world") (by decide) rfl rfl

/-- C3: reading a name that is neither a bound (reserved or instance)
attribute nor a present key fails with `AttributeError` carrying exactly
the name, and no attribute read ever surfaces the key-style `KeyError`:
whatever state and name an attribute read fails on, the error is never of
the key-not-found kind. -/
theorem c3_getattr_missing (b b2 : BunchState) (name name2 : String) (e2 : PyErr)
    (hres : reservedNames.contains name = false)
    (hattr : lookupA b.attrs name = none)
    (hkey : lookupA b.entries name = none) :
    getattrB b name = .error (.attributeNotFound name) ∧
    (getattrB b2 name2 = .error e2 → e2.isKeyNotFound = false) := by
  have hmem : name ∉ reservedNames := by simpa using hres
  constructor
  · simp [getattrB, getitemB, hattr, hkey, hmem]
  · intro h
    unfold getattrB at h
    cases h2 : lookupA b2.attrs name2 with
    | some v => simp [h2] at h
    | none =>
      rw [h2] at h
      cases h3 : getitemB b2 name2 with
      | ok v =>
        rw [h3] at h
        by_cases hr : reservedNames.contains name2 = true
        · rw [if_pos hr] at h
          exact absurd h (by simp)
        · rw [if_neg hr] at h
          exact absurd h (by simp)
      | error e =>
        rw [h3] at h
        by_cases hr : reservedNames.contains name2 = true
        · rw [if_pos hr] at h
          exact absurd h (by simp)
        · rw [if_neg hr] at h
          injection h with h
          subst h
          rfl

/-- C3 witness: the doctest input `Bunch(bar='baz', lol={}).foo`. -/
theorem c3_witness :
    getattrB ⟨[("bar", .strV "baz"), ("lol", .obj 0)], []⟩ "foo"
      = .error (.attributeNotFound "foo") ∧
    (getattrB ⟨[], []⟩ "nothing" = .error (.keyNotFound "nothing") →
      (PyErr.keyNotFound "nothing").isKeyNotFound = false) :=
  c3_getattr_missing ⟨[("bar", .strV "baz"), ("lol", .obj 0)], []⟩ ⟨[], []⟩
    "foo" "nothing" (.keyNotFound "nothing") (by decide) rfl rfl

/-- C4: writing a reserved method name attribute-style (e.g. `b.values =
x`) leaves the mapping contents untouched -- the key view is exactly as
before, so a key read gives the same result as before the write -- while
the subsequent attribute read returns `x` (the write rebound the instance
attribute that shadows the class method). -/
theorem c4_reserved_shadow (b : BunchState) (name : String) (x : Val)
    (hres : reservedNames.contains name = true) :
    (setattrB b name x).entries = b.entries ∧
    getattrB (setattrB b name x) name = .ok x ∧
    getitemB (setattrB b name x) name = getitemB b name := by
  have hmem : name ∈ reservedNames := by simpa using hres
  have hhas : hasattrB b name = true := by
    unfold hasattrB getattrB
    cases h : lookupA b.attrs name with
    | some v => simp [isOkE]
    | none => simp [h, hmem, isOkE]
  have hset : setattrB b name x = { b with attrs := setAssoc b.attrs name x } := by
    simp [setattrB, hhas]
  refine ⟨by simp [hset], ?_, by simp [hset, getitemB]⟩
  simp [hset, getattrB, lookupA_setAssoc_self]

/-- C4 witness: the doctest scenario `b.values = 'uh oh'` on
`Bunch(foo='bar')`: the key `values` stays absent (so `b['values']` still
raises `KeyError`) while `b.values` reads back `'uh oh'`. -/
theorem c4_witness :
    (setattrB ⟨[("foo", .strV "bar")], []⟩ "values" (.strV "uh oh")).entries
      = [("foo", Val.strV "bar")] ∧
    getattrB (setattrB ⟨[("foo", .strV "bar")], []⟩ "values" (.strV "uh oh")) "values"
      = .ok (.strV "uh oh") ∧
    getitemB (setattrB ⟨[("foo", .strV "bar")], []⟩ "values" (.strV "uh oh")) "values"
      = getitemB ⟨[("foo", .strV "bar")], []⟩ "values" :=
  c4_reserved_shadow ⟨[("foo", .strV "bar")], []⟩ "values" (.strV "uh oh") (by decide)

/-- C5 counterexample: the claim fails for a reserved name stored as a
key.  With `values` present as a key (set via subscript) and no shadowing
instance attribute, the attribute delete does remove the key, but the
subsequent attribute read *succeeds* -- it returns the built-in `values`
method -- instead of failing with the claimed not-found error. -/
theorem c5_counterexample :
    lookupA (BunchState.mk [("values", .obj 0)] []).entries "values" = some (.obj 0) ∧
    lookupA (BunchState.mk [("values", .obj 0)] []).attrs "values" = none ∧
    delattrB ⟨[("values", .obj 0)], []⟩ "values" = .ok ⟨[], []⟩ ∧
    getattrB ⟨[], []⟩ "values" = .ok (.builtin "values") :=
  ⟨rfl, rfl, rfl, rfl⟩

/-- C5 (amended): for a *non-reserved* name `k` present as a key and not
shadowed by an instance attribute, the attribute delete removes `k` from
both views: it succeeds, the subsequent attribute read fails with
`AttributeError(k)`, and the subsequent key read fails with
`KeyError(k)`.  (For a reserved name stored as a key the delete also
removes the key, but the attribute read then finds the built-in method
again, as the counterexample shows.) -/
theorem c5_delattr_key (b : BunchState) (k : String) (v : Val)
    (hres : reservedNames.contains k = false)
    (hkey : lookupA b.entries k = some v)
    (hattr : lookupA b.attrs k = none) :
    delattrB b k = .ok { b with entries := removeAssoc b.entries k } ∧
    getattrB { b with entries := removeAssoc b.entries k } k
      = .error (.attributeNotFound k) ∧
    getitemB { b with entries := removeAssoc b.entries k } k
      = .error (.keyNotFound k) := by
  have hmem : k ∉ reservedNames := by simpa using hres
  refine ⟨by simp [delattrB, hkey], ?_, ?_⟩
  · simp [getattrB, getitemB, hattr, hmem, lookupA_removeAssoc_self]
  · simp [getitemB, lookupA_removeAssoc_self]

/-- C5 witness: the doctest scenario `del b.lol` on `Bunch(lol=42)`. -/
theorem c5_witness :
    delattrB ⟨[("lol", .obj 42)], []⟩ "lol" = .ok ⟨removeAssoc [("lol", .obj 42)] "lol", []⟩ ∧
    getattrB ⟨removeAssoc [("lol", .obj 42)] "lol", []⟩ "lol"
      = .error (.attributeNotFound "lol") ∧
    getitemB ⟨removeAssoc [("lol", .obj 42)] "lol", []⟩ "lol"
      = .error (.keyNotFound "lol") :=
  c5_delattr_key ⟨[("lol", .obj 42)], []⟩ "lol" (.obj 42) (by decide) rfl rfl

/-- C6: on a `Bunch` where a reserved name (such as `values`) was never
overridden by an instance attribute and is not present as a key, the
attribute delete fails with the read-only error, which is a different
error value from the not-found error, and the built-in attribute is still
readable afterwards (the failed delete changes nothing). -/
theorem c6_delattr_reserved (b : BunchState) (name : String)
    (hres : reservedNames.contains name = true)
    (hattr : lookupA b.attrs name = none)
    (hkey : lookupA b.entries name = none) :
    delattrB b name = .error (.attributeReadOnly name) ∧
    PyErr.attributeReadOnly name ≠ PyErr.attributeNotFound name ∧
    getattrB b name = .ok (.builtin name) := by
  have hmem : name ∈ reservedNames := by simpa using hres
  refine ⟨by simp [delattrB, hkey, hattr, hmem], by simp, ?_⟩
  simp [getattrB, hattr, hmem]

/-- C6 witness: the doctest scenario `del b.values` on `Bunch(lol=42)`
(a fresh instance: `values` neither overridden nor a key). -/
theorem c6_witness :
    delattrB ⟨[("lol", .obj 42)], []⟩ "values" = .error (.attributeReadOnly "values") ∧
    PyErr.attributeReadOnly "values" ≠ PyErr.attributeNotFound "values" ∧
    getattrB ⟨[("lol", .obj 42)], []⟩ "values" = .ok (.builtin "values") :=
  c6_delattr_reserved ⟨[("lol", .obj 42)], []⟩ "values" (by decide) rfl rfl

/-- C10: when a reserved name (here `values`) has been overridden by an
instance attribute and is not present as a key, the attribute delete
succeeds (no read-only and no not-found error): it removes the overriding
instance attribute, the built-in binding becomes visible again on the
next attribute read, and the mapping contents are untouched. -/
theorem c10_delattr_override (b : BunchState) (x : Val)
    (hattr : lookupA b.attrs "values" = some x)
    (hkey : lookupA b.entries "values" = none) :
    delattrB b "values" = .ok { b with attrs := removeAssoc b.attrs "values" } ∧
    lookupA (removeAssoc b.attrs "values") "values" = none ∧
    getattrB { b with attrs := removeAssoc b.attrs "values" } "values"
      = .ok (.builtin "values") ∧
    ({ b with attrs := removeAssoc b.attrs "values" }).entries = b.entries := by
  have hmem : "values" ∈ reservedNames := by decide
  refine ⟨by simp [delattrB, hkey, hattr], lookupA_removeAssoc_self _ _, ?_, rfl⟩
  simp [getattrB, lookupA_removeAssoc_self, hmem]

/-- C10 witness: the doctest state after `b.values = 'uh oh'` (the
instance attribute overrides the method and no `values` key exists),
then deleting `b.values`. -/
theorem c10_witness :
    delattrB ⟨[], [("values", .strV "uh oh")]⟩ "values"
      = .ok ⟨[], removeAssoc [("values", .strV "uh oh")] "values"⟩ ∧
    lookupA (removeAssoc [("values", Val.strV "uh oh")] "values") "values" = none ∧
    getattrB ⟨[], removeAssoc [("values", .strV "uh oh")] "values"⟩ "values"
      = .ok (.builtin "values") ∧
    (BunchState.mk [] (removeAssoc [("values", .strV "uh oh")] "values")).entries
      = ([] : Assoc) :=
  c10_delattr_override ⟨[], [("values", .strV "uh oh")]⟩ (.strV "uh oh") rfl rfl

/-!
Helper lemmas about the converters.
-/

mutual
theorem unbunchify_bunchify_val : ∀ (v : PyVal), plainV v = true →
    unbunchify (bunchify v) = v
  | .leaf _, _ => rfl
  | .dict kvs, h => by
      have hf : plainF kvs = true := by simpa [plainV] using h
      simp [bunchify, unbunchify, unbunchify_bunchify_fields kvs hf]
  | .bunch _, h => by simp [plainV] at h
  | .listV xs, h => by
      have hl : plainL xs = true := by simpa [plainV] using h
      simp [bunchify, unbunchify, unbunchify_bunchify_list xs hl]
  | .tupleV xs, h => by
      have hl : plainL xs = true := by simpa [plainV] using h
      simp [bunchify, unbunchify, unbunchify_bunchify_list xs hl]
theorem unbunchify_bunchify_fields : ∀ (kvs : PyFields), plainF kvs = true →
    unbunchifyF (bunchifyF kvs) = kvs
  | .nil, _ => rfl
  | .cons k v rest, h => by
      have hv : plainV v = true := by
        have := (Bool.and_eq_true _ _).mp (by simpa [plainF] using h)
        exact this.1
      have hr : plainF rest = true := by
        have := (Bool.and_eq_true _ _).mp (by simpa [plainF] using h)
        exact this.2
      simp [bunchifyF, unbunchifyF, unbunchify_bunchify_val v hv,
        unbunchify_bunchify_fields rest hr]
theorem unbunchify_bunchify_list : ∀ (xs : PyList), plainL xs = true →
    unbunchifyL (bunchifyL xs) = xs
  | .nil, _ => rfl
  | .cons x xs, h => by
      have hv : plainV x = true := by
        have := (Bool.and_eq_true _ _).mp (by simpa [plainL] using h)
        exact this.1
      have hr : plainL xs = true := by
        have := (Bool.and_eq_true _ _).mp (by simpa [plainL] using h)
        exact this.2
      simp [bunchifyL, unbunchifyL, unbunchify_bunchify_val x hv,
        unbunchify_bunchify_list xs hr]
end

theorem lookupF_bunchifyF : ∀ (kvs : PyFields) (k : String),
    lookupF (bunchifyF kvs) k = (lookupF kvs k).map bunchify
  | .nil, _ => rfl
  | .cons k1 v rest, k => by
      by_cases h : k1 = k
      · simp [bunchifyF, lookupF, h]
      · simp [bunchifyF, lookupF, h, lookupF_bunchifyF rest k]

theorem getIdx_bunchifyL : ∀ (xs : PyList) (i : Nat),
    getIdx (bunchifyL xs) i = (getIdx xs i).map bunchify
  | .nil, _ => rfl
  | .cons x _, 0 => by simp [bunchifyL, getIdx]
  | .cons _ xs, i + 1 => by simp [bunchifyL, getIdx, getIdx_bunchifyL xs i]

theorem childAt_bunchify (v : PyVal) (s : PathStep) :
    childAt (bunchify v) s = (childAt v s).map bunchify := by
  cases v <;> cases s <;>
    simp [bunchify, childAt, lookupF_bunchifyF, getIdx_bunchifyL]

theorem getPath_bunchify : ∀ (p : List PathStep) (v : PyVal),
    getPath (bunchify v) p = (getPath v p).map bunchify
  | [], _ => rfl
  | s :: rest, v => by
      simp only [getPath, childAt_bunchify]
      cases h : childAt v s with
      | none => simp
      | some c => simp [getPath_bunchify rest c]

theorem kindOf_bunchify (v : PyVal) : kindOf (bunchify v) = kindOf v := by
  cases v <;> rfl

mutual
theorem depthV_bunchify : ∀ (v : PyVal), depthV (bunchify v) = depthV v
  | .leaf _ => rfl
  | .dict kvs => by simp [bunchify, depthV, depthF_bunchifyF kvs]
  | .bunch kvs => by simp [bunchify, depthV, depthF_bunchifyF kvs]
  | .listV xs => by simp [bunchify, depthV, depthL_bunchifyL xs]
  | .tupleV xs => by simp [bunchify, depthV, depthL_bunchifyL xs]
theorem depthF_bunchifyF : ∀ (kvs : PyFields), depthF (bunchifyF kvs) = depthF kvs
  | .nil => rfl
  | .cons _ v rest => by
      simp [bunchifyF, depthF, depthV_bunchify v, depthF_bunchifyF rest]
theorem depthL_bunchifyL : ∀ (xs : PyList), depthL (bunchifyL xs) = depthL xs
  | .nil => rfl
  | .cons x xs => by
      simp [bunchifyL, depthL, depthV_bunchify x, depthL_bunchifyL xs]
end

mutual
theorem depthV_unbunchify : ∀ (v : PyVal), depthV (unbunchify v) = depthV v
  | .leaf _ => rfl
  | .dict kvs => by simp [unbunchify, depthV, depthF_unbunchifyF kvs]
  | .bunch kvs => by simp [unbunchify, depthV, depthF_unbunchifyF kvs]
  | .listV xs => by simp [unbunchify, depthV, depthL_unbunchifyL xs]
  | .tupleV xs => by simp [unbunchify, depthV, depthL_unbunchifyL xs]
theorem depthF_unbunchifyF : ∀ (kvs : PyFields), depthF (unbunchifyF kvs) = depthF kvs
  | .nil => rfl
  | .cons _ v rest => by
      simp [unbunchifyF, depthF, depthV_unbunchify v, depthF_unbunchifyF rest]
theorem depthL_unbunchifyL : ∀ (xs : PyList), depthL (unbunchifyL xs) = depthL xs
  | .nil => rfl
  | .cons x xs => by
      simp [unbunchifyL, depthL, depthV_unbunchify x, depthL_unbunchifyL xs]
end

/-- C2: for every plain nested structure `S` (built only from mappings,
lists, tuples and scalar leaves), `unbunchify (bunchify S)` is
deep-structurally equal to `S`, and at every path the container kind in
`bunchify S` equals the container kind in `S` (a mapping stays a mapping,
a list stays a list, a tuple stays a tuple); by the round-trip equality
the same holds of `unbunchify`'s result. -/
theorem c2_roundtrip (S : PyVal) (p : List PathStep) (h : plainV S = true) :
    unbunchify (bunchify S) = S ∧
    (getPath (bunchify S) p).map kindOf = (getPath S p).map kindOf := by
  refine ⟨unbunchify_bunchify_val S h, ?_⟩
  rw [getPath_bunchify]
  cases getPath S p with
  | none => rfl
  | some c => simp [kindOf_bunchify]

/-- C2 witness: the spec's concrete scenario structure, probed at the
path `a`, `b`, index 1 (the tuple inside the list). -/
theorem c2_witness :
    unbunchify (bunchify specExample) = specExample ∧
    (getPath (bunchify specExample) [.keyStep "a", .keyStep "b", .idxStep 1]).map kindOf
      = (getPath specExample [.keyStep "a", .keyStep "b", .idxStep 1]).map kindOf :=
  c2_roundtrip specExample [.keyStep "a", .keyStep "b", .idxStep 1] rfl

/-- C9: `bunchify` and `unbunchify` are total functions of the whole
input type (every Lean function is; the recursions above are structural,
hence terminate on every finite input), they return any opaque leaf
unchanged, and they preserve the nesting depth -- the traversal is
bounded by the input's depth. -/
theorem c9_total_depth (n : Nat) (S : PyVal) :
    bunchify (.leaf n) = .leaf n ∧
    unbunchify (.leaf n) = .leaf n ∧
    depthV (bunchify S) = depthV S ∧
    depthV (unbunchify S) = depthV S :=
  ⟨rfl, rfl, depthV_bunchify S, depthV_unbunchify S⟩

/-!
Helper lemmas about the allocation-threading conversion.
-/

mutual
theorem bunchifyO_mono : ∀ (v : PyObj) (n : Nat), n ≤ (bunchifyO v n).2
  | .leafO _, _ => le_refl _
  | .dictO _ kvs, n => by
      simpa [bunchifyO] using Nat.le_succ_of_le (bunchifyOF_mono kvs n)
  | .bunchO _ kvs, n => by
      simpa [bunchifyO] using Nat.le_succ_of_le (bunchifyOF_mono kvs n)
  | .listO _ xs, n => by
      simpa [bunchifyO] using Nat.le_succ_of_le (bunchifyOL_mono xs n)
  | .tupleO _ xs, n => by
      simpa [bunchifyO] using Nat.le_succ_of_le (bunchifyOL_mono xs n)
theorem bunchifyOF_mono : ∀ (kvs : PyObjFields) (n : Nat), n ≤ (bunchifyOF kvs n).2
  | .nilF, _ => le_refl _
  | .consF _ v rest, n => by
      simpa [bunchifyOF] using
        le_trans (bunchifyO_mono v n) (bunchifyOF_mono rest (bunchifyO v n).2)
theorem bunchifyOL_mono : ∀ (xs : PyObjList) (n : Nat), n ≤ (bunchifyOL xs n).2
  | .nilL, _ => le_refl _
  | .consL x xs, n => by
      simpa [bunchifyOL] using
        le_trans (bunchifyO_mono x n) (bunchifyOL_mono xs (bunchifyO x n).2)
end

mutual
theorem bunchifyO_cid_ge : ∀ (v : PyObj) (n c : Nat),
    hasCid (bunchifyO v n).1 c = true → n ≤ c
  | .leafO _, n, c, h => by simp [bunchifyO, hasCid] at h
  | .dictO _ kvs, n, c, h => by
      simp only [bunchifyO, hasCid, Bool.or_eq_true, beq_iff_eq] at h
      rcases h with h | h
      · exact h ▸ bunchifyOF_mono kvs n
      · exact bunchifyOF_cid_ge kvs n c h
  | .bunchO _ kvs, n, c, h => by
      simp only [bunchifyO, hasCid, Bool.or_eq_true, beq_iff_eq] at h
      rcases h with h | h
      · exact h ▸ bunchifyOF_mono kvs n
      · exact bunchifyOF_cid_ge kvs n c h
  | .listO _ xs, n, c, h => by
      simp only [bunchifyO, hasCid, Bool.or_eq_true, beq_iff_eq] at h
      rcases h with h | h
      · exact h ▸ bunchifyOL_mono xs n
      · exact bunchifyOL_cid_ge xs n c h
  | .tupleO _ xs, n, c, h => by
      simp only [bunchifyO, hasCid, Bool.or_eq_true, beq_iff_eq] at h
      rcases h with h | h
      · exact h ▸ bunchifyOL_mono xs n
      · exact bunchifyOL_cid_ge xs n c h
theorem bunchifyOF_cid_ge : ∀ (kvs : PyObjFields) (n c : Nat),
    hasCidF (bunchifyOF kvs n).1 c = true → n ≤ c
  | .nilF, n, c, h => by simp [bunchifyOF, hasCidF] at h
  | .consF _ v rest, n, c, h => by
      simp only [bunchifyOF, hasCidF, Bool.or_eq_true] at h
      rcases h with h | h
      · exact bunchifyO_cid_ge v n c h
      · exact le_trans (bunchifyO_mono v n)
          (bunchifyOF_cid_ge rest (bunchifyO v n).2 c h)
theorem bunchifyOL_cid_ge : ∀ (xs : PyObjList) (n c : Nat),
    hasCidL (bunchifyOL xs n).1 c = true → n ≤ c
  | .nilL, n, c, h => by simp [bunchifyOL, hasCidL] at h
  | .consL x xs, n, c, h => by
      simp only [bunchifyOL, hasCidL, Bool.or_eq_true] at h
      rcases h with h | h
      · exact bunchifyO_cid_ge x n c h
      · exact le_trans (bunchifyO_mono x n)
          (bunchifyOL_cid_ge xs (bunchifyO x n).2 c h)
end

mutual
theorem cidsBelow_hasCid : ∀ (v : PyObj) (n c : Nat),
    cidsBelow v n = true → hasCid v c = true → c < n
  | .leafO _, _, _, _, h => by simp [hasCid] at h
  | .dictO i kvs, n, c, hb, h => by
      simp only [cidsBelow, Bool.and_eq_true, decide_eq_true_eq] at hb
      simp only [hasCid, Bool.or_eq_true, beq_iff_eq] at h
      rcases h with h | h
      · exact h ▸ hb.1
      · exact cidsBelowF_hasCidF kvs n c hb.2 h
  | .bunchO i kvs, n, c, hb, h => by
      simp only [cidsBelow, Bool.and_eq_true, decide_eq_true_eq] at hb
      simp only [hasCid, Bool.or_eq_true, beq_iff_eq] at h
      rcases h with h | h
      · exact h ▸ hb.1
      · exact cidsBelowF_hasCidF kvs n c hb.2 h
  | .listO i xs, n, c, hb, h => by
      simp only [cidsBelow, Bool.and_eq_true, decide_eq_true_eq] at hb
      simp only [hasCid, Bool.or_eq_true, beq_iff_eq] at h
      rcases h with h | h
      · exact h ▸ hb.1
      · exact cidsBelowL_hasCidL xs n c hb.2 h
  | .tupleO i xs, n, c, hb, h => by
      simp only [cidsBelow, Bool.and_eq_true, decide_eq_true_eq] at hb
      simp only [hasCid, Bool.or_eq_true, beq_iff_eq] at h
      rcases h with h | h
      · exact h ▸ hb.1
      · exact cidsBelowL_hasCidL xs n c hb.2 h
theorem cidsBelowF_hasCidF : ∀ (kvs : PyObjFields) (n c : Nat),
    cidsBelowF kvs n = true → hasCidF kvs c = true → c < n
  | .nilF, _, _, _, h => by simp [hasCidF] at h
  | .consF _ v rest, n, c, hb, h => by
      simp only [cidsBelowF, Bool.and_eq_true] at hb
      simp only [hasCidF, Bool.or_eq_true] at h
      rcases h with h | h
      · exact cidsBelow_hasCid v n c hb.1 h
      · exact cidsBelowF_hasCidF rest n c hb.2 h
theorem cidsBelowL_hasCidL : ∀ (xs : PyObjList) (n c : Nat),
    cidsBelowL xs n = true → hasCidL xs c = true → c < n
  | .nilL, _, _, _, h => by simp [hasCidL] at h
  | .consL x xs, n, c, hb, h => by
      simp only [cidsBelowL, Bool.and_eq_true] at hb
      simp only [hasCidL, Bool.or_eq_true] at h
      rcases h with h | h
      · exact cidsBelow_hasCid x n c hb.1 h
      · exact cidsBelowL_hasCidL xs n c hb.2 h
end

theorem lookupOF_bunchifyOF : ∀ (kvs : PyObjFields) (n : Nat) (k : String) (c : PyObj),
    lookupOF kvs k = some c →
    ∃ m, lookupOF (bunchifyOF kvs n).1 k = some (bunchifyO c m).1
  | .nilF, _, _, _, h => by simp [lookupOF] at h
  | .consF k1 v rest, n, k, c, h => by
      by_cases hk : k1 = k
      · subst hk
        simp [lookupOF] at h
        subst h
        exact ⟨n, by simp [bunchifyOF, lookupOF]⟩
      · simp only [lookupOF, hk, if_neg hk] at h
        obtain ⟨m, hm⟩ := lookupOF_bunchifyOF rest (bunchifyO v n).2 k c h
        exact ⟨m, by simp [bunchifyOF, lookupOF, hk, hm]⟩

theorem getIdxO_bunchifyOL : ∀ (xs : PyObjList) (n : Nat) (i : Nat) (c : PyObj),
    getIdxO xs i = some c →
    ∃ m, getIdxO (bunchifyOL xs n).1 i = some (bunchifyO c m).1
  | .nilL, _, _, _, h => by simp [getIdxO] at h
  | .consL x _, n, 0, c, h => by
      refine ⟨n, ?_⟩
      simp only [getIdxO, Option.some.injEq] at h
      simp [bunchifyOL, getIdxO, h]
  | .consL x xs, n, i + 1, c, h => by
      simp only [getIdxO] at h
      obtain ⟨m, hm⟩ := getIdxO_bunchifyOL xs (bunchifyO x n).2 i c h
      exact ⟨m, by simp [bunchifyOL, getIdxO, hm]⟩

theorem childAtO_bunchifyO (v : PyObj) (n : Nat) (s : PathStep) (c : PyObj)
    (h : childAtO v s = some c) :
    ∃ m, childAtO (bunchifyO v n).1 s = some (bunchifyO c m).1 := by
  cases v with
  | leafO i => simp [childAtO] at h
  | dictO i kvs =>
    cases s with
    | keyStep k =>
      obtain ⟨m, hm⟩ := lookupOF_bunchifyOF kvs n k c (by simpa [childAtO] using h)
      exact ⟨m, by simpa [bunchifyO, childAtO] using hm⟩
    | idxStep i2 => simp [childAtO] at h
  | bunchO i kvs =>
    cases s with
    | keyStep k =>
      obtain ⟨m, hm⟩ := lookupOF_bunchifyOF kvs n k c (by simpa [childAtO] using h)
      exact ⟨m, by simpa [bunchifyO, childAtO] using hm⟩
    | idxStep i2 => simp [childAtO] at h
  | listO i xs =>
    cases s with
    | keyStep k => simp [childAtO] at h
    | idxStep i2 =>
      obtain ⟨m, hm⟩ := getIdxO_bunchifyOL xs n i2 c (by simpa [childAtO] using h)
      exact ⟨m, by simpa [bunchifyO, childAtO] using hm⟩
  | tupleO i xs =>
    cases s with
    | keyStep k => simp [childAtO] at h
    | idxStep i2 =>
      obtain ⟨m, hm⟩ := getIdxO_bunchifyOL xs n i2 c (by simpa [childAtO] using h)
      exact ⟨m, by simpa [bunchifyO, childAtO] using hm⟩

theorem getPathO_bunchifyO_leaf : ∀ (p : List PathStep) (v : PyObj) (n i : Nat),
    getPathO v p = some (.leafO i) → getPathO (bunchifyO v n).1 p = some (.leafO i)
  | [], v, n, i, h => by
      simp only [getPathO, Option.some.injEq] at h
      subst h
      rfl
  | s :: rest, v, n, i, h => by
      simp only [getPathO, Option.bind_eq_some] at h ⊢
      obtain ⟨c, hc, hrest⟩ := h
      obtain ⟨m, hm⟩ := childAtO_bunchifyO v n s c hc
      exact ⟨(bunchifyO c m).1, hm, getPathO_bunchifyO_leaf rest c m i hrest⟩

/-- C8: with all container ids of the input `S` below the allocation
counter `n`, `bunchifyO S n` (i) never returns a container object of the
input -- every mapping/sequence node of the result is newly allocated
(its id occurs nowhere in `S`) -- and (ii) shares every leaf: the leaf
object found in `S` at any path is found, identically (same object id),
at the same path of the result.  The embedding is a pure function of
`S`, so the input structure itself is unchanged: `bunchify` does not
mutate its argument. -/
theorem c8_fresh_and_sharing (S : PyObj) (n c i : Nat) (p : List PathStep)
    (h : cidsBelow S n = true) :
    (hasCid (bunchifyO S n).1 c = true → hasCid S c = false) ∧
    (getPathO S p = some (.leafO i) → getPathO (bunchifyO S n).1 p = some (.leafO i)) := by
  constructor
  · intro hc
    have h1 : n ≤ c := bunchifyO_cid_ge S n c hc
    cases h2 : hasCid S c with
    | false => rfl
    | true => exact absurd (cidsBelow_hasCid S n c h h2) (by omega)
  · exact getPathO_bunchifyO_leaf p S n i

/-- C8 witness: a one-entry dict with container id 0 holding leaf object
5, converted with allocation counter 1; the result is a `Bunch` with the
fresh container id 1 and the same leaf object at key `a`. -/
theorem c8_witness :
    (hasCid (bunchifyO (.dictO 0 (.consF "a" (.leafO 5) .nilF)) 1).1 1 = true →
      hasCid (.dictO 0 (.consF "a" (.leafO 5) .nilF)) 1 = false) ∧
    (getPathO (.dictO 0 (.consF "a" (.leafO 5) .nilF)) [.keyStep "a"] = some (.leafO 5) →
      getPathO (bunchifyO (.dictO 0 (.consF "a" (.leafO 5) .nilF)) 1).1 [.keyStep "a"]
        = some (.leafO 5)) :=
  c8_fresh_and_sharing (.dictO 0 (.consF "a" (.leafO 5) .nilF)) 1 1 5 [.keyStep "a"] rfl

/-- C7 counterexample: insertion order is not preserved.  Inserting the
key `hello` and then the key `foo` into a fresh table (exactly the
module doctest: `b.hello = 'world'` then `b.foo = ...`) iterates as
`['foo', 'hello']` -- the source's own doctest output for `b.keys()` --
which differs from the insertion order `['hello', 'foo']`. -/
theorem c7_counterexample :
    tableKeys (dictInsert (dictInsert emptySlots "hello" (.strV "world")) "foo" (.obj 0))
      = ["foo", "hello"] ∧
    ["foo", "hello"] ≠ ["hello", "foo"] :=
  ⟨by decide, by decide⟩

/-- C7 (amended): key order is the hash-table slot order of the
underlying Python 2 dict, not insertion order.  Inserting `hello` then
`foo` iterates as `['foo', 'hello']` (the doctest's `b.keys()` output);
the same layout arises from the opposite insertion order; the documented
three-key example iterates as `['ponies', 'foo', 'hello']` (the doctest
repr order) whatever the insertion order of its keys; and the spec's
singleton scenario does hold: after `m.foo = 'bar'` the textual form is
`Bunch({'foo': 'bar'})`. -/
theorem c7_hash_order :
    tableKeys (dictInsert (dictInsert emptySlots "hello" (.strV "world")) "foo" (.obj 0))
      = ["foo", "hello"] ∧
    tableKeys (dictInsert (dictInsert emptySlots "foo" (.obj 0)) "hello" (.strV "world"))
      = ["foo", "hello"] ∧
    tableKeys (dictInsert (dictInsert (dictInsert emptySlots "foo" (.obj 1))
        "hello" (.obj 2)) "ponies" (.obj 3))
      = ["ponies", "foo", "hello"] ∧
    tableKeys (dictInsert (dictInsert (dictInsert emptySlots "ponies" (.obj 3))
        "foo" (.obj 1)) "hello" (.obj 2))
      = ["ponies", "foo", "hello"] ∧
    bunchRepr (dictInsert emptySlots "foo" (.strV "bar"))
      = "Bunch(" ++ lbrace ++ quoteS ++ "foo" ++ quoteS ++ ": "
          ++ quoteS ++ "bar" ++ quoteS ++ rbrace ++ ")" :=
  ⟨by decide, by decide, by decide, by decide, by decide⟩
